import Mathlib

/-!
Shallow embedding of the PBR fragment-shading library in
crates/shader/src/bevy_pbr/pbr_functions.rs.

Scalar values (f32 in the shader) are modelled as exact rationals; the two
helpers that need a square root (vector normalization) are modelled over the
reals in a separate section below.  Fragment discard (the kill intrinsic) is
modelled by returning none.
-/

/-- Two-component rational vector (glam Vec2). -/
@[ext]
structure Vec2Q where
  x : ℚ
  y : ℚ
deriving DecidableEq

/-- Three-component rational vector (glam Vec3). -/
@[ext]
structure Vec3Q where
  x : ℚ
  y : ℚ
  z : ℚ
deriving DecidableEq

/-- Four-component rational vector (glam Vec4). -/
@[ext]
structure Vec4Q where
  x : ℚ
  y : ℚ
  z : ℚ
  w : ℚ
deriving DecidableEq

namespace Vec3Q

/-- glam Vec3::ZERO. -/
def ZERO : Vec3Q := ⟨0, 0, 0⟩

/-- Componentwise addition (glam Add for Vec3). -/
instance : Add Vec3Q := ⟨fun a b => ⟨a.x + b.x, a.y + b.y, a.z + b.z⟩⟩

/-- Componentwise subtraction (glam Sub for Vec3). -/
instance : Sub Vec3Q := ⟨fun a b => ⟨a.x - b.x, a.y - b.y, a.z - b.z⟩⟩

/-- Componentwise negation (glam Neg for Vec3). -/
instance : Neg Vec3Q := ⟨fun a => ⟨-a.x, -a.y, -a.z⟩⟩

/-- Componentwise product (glam Mul of Vec3 by Vec3). -/
instance : Mul Vec3Q := ⟨fun a b => ⟨a.x * b.x, a.y * b.y, a.z * b.z⟩⟩

/-- Vector times scalar (glam Mul of Vec3 by f32). -/
instance : HMul Vec3Q ℚ Vec3Q := ⟨fun v s => ⟨v.x * s, v.y * s, v.z * s⟩⟩

/-- Scalar times vector (glam Mul of f32 by Vec3). -/
instance : HMul ℚ Vec3Q Vec3Q := ⟨fun s v => ⟨s * v.x, s * v.y, s * v.z⟩⟩

/-- Scalar plus vector, componentwise (glam Add of f32 and Vec3). -/
instance : HAdd ℚ Vec3Q Vec3Q := ⟨fun s v => ⟨s + v.x, s + v.y, s + v.z⟩⟩

/-- glam Vec3::dot. -/
def dot (a b : Vec3Q) : ℚ := a.x * b.x + a.y * b.y + a.z * b.z

/-- glam Vec3::truncate, dropping the z component. -/
def truncate (v : Vec3Q) : Vec2Q := ⟨v.x, v.y⟩

/-- glam Vec3::extend, appending a w component. -/
def extend (v : Vec3Q) (w : ℚ) : Vec4Q := ⟨v.x, v.y, v.z, w⟩

/-- glam Vec3::reflect: self - 2.0 * self.dot(normal) * normal. -/
def reflect (v n : Vec3Q) : Vec3Q := v - (2 * v.dot n) * n

end Vec3Q

namespace Vec4Q

/-- glam Vec4::dot. -/
def dot (a b : Vec4Q) : ℚ := a.x * b.x + a.y * b.y + a.z * b.z + a.w * b.w

/-- glam Vec4::truncate, dropping the w component. -/
def truncate (v : Vec4Q) : Vec3Q := ⟨v.x, v.y, v.z⟩

end Vec4Q

theorem Vec3Q.add_def (a b : Vec3Q) : a + b = ⟨a.x + b.x, a.y + b.y, a.z + b.z⟩ := rfl

theorem Vec3Q.sub_def (a b : Vec3Q) : a - b = ⟨a.x - b.x, a.y - b.y, a.z - b.z⟩ := rfl

theorem Vec3Q.neg_def (a : Vec3Q) : -a = ⟨-a.x, -a.y, -a.z⟩ := rfl

theorem Vec3Q.mul_def (a b : Vec3Q) : a * b = ⟨a.x * b.x, a.y * b.y, a.z * b.z⟩ := rfl

theorem Vec3Q.mul_scalar_def (v : Vec3Q) (s : ℚ) : v * s = ⟨v.x * s, v.y * s, v.z * s⟩ := rfl

theorem Vec3Q.scalar_mul_def (s : ℚ) (v : Vec3Q) : s * v = ⟨s * v.x, s * v.y, s * v.z⟩ := rfl

theorem Vec3Q.scalar_add_def (s : ℚ) (v : Vec3Q) : s + v = ⟨s + v.x, s + v.y, s + v.z⟩ := rfl

/-- Modelled from the spec: bit flag selecting the opaque alpha mode, from the
pbr_types module (declared outside src, referenced by pbr_functions.rs).  The
claims only need it to be a fixed nonzero bit distinct from the mask bit; the
value 64 follows the upstream layout. -/
def STANDARD_MATERIAL_FLAGS_ALPHA_MODE_OPAQUE : ℕ := 64

/-- Modelled from the spec: bit flag selecting the masked alpha mode, from the
pbr_types module (declared outside src, referenced by pbr_functions.rs). -/
def STANDARD_MATERIAL_FLAGS_ALPHA_MODE_MASK : ℕ := 128

/-- Modelled from the spec: mesh flag marking a shadow receiver, from the
mesh_types module (declared outside src, referenced by pbr_functions.rs). -/
def MESH_FLAGS_SHADOW_RECEIVER_BIT : ℕ := 1

/-- Modelled from the spec: point light flag enabling shadows, from the
mesh_view_types module (declared outside src, referenced by pbr_functions.rs). -/
def POINT_LIGHT_FLAGS_SHADOWS_ENABLED_BIT : ℕ := 1

/-- Modelled from the spec: directional light flag enabling shadows, from the
mesh_view_types module (declared outside src, referenced by pbr_functions.rs). -/
def DIRECTIONAL_LIGHT_FLAGS_SHADOWS_ENABLED_BIT : ℕ := 1

/-- The StandardMaterial record, with exactly the fields pbr_functions.rs
reads (the type itself lives in the pbr_types module outside src; the field
list follows section 3 of the design document). -/
structure StandardMaterial where
  base_color : Vec4Q
  emissive : Vec4Q
  perceptual_roughness : ℚ
  metallic : ℚ
  reflectance : ℚ
  flags : ℕ
  alpha_cutoff : ℚ
deriving DecidableEq

/-- alpha_discard from pbr_functions.rs lines 31 to 49.  The kill intrinsic
(fragment discard) is modelled by returning none; the mutation of the local
color is modelled functionally. -/
def alpha_discard (material : StandardMaterial) (output_color : Vec4Q) : Option Vec4Q :=
  let color := output_color
  if material.flags &&& STANDARD_MATERIAL_FLAGS_ALPHA_MODE_OPAQUE ≠ 0 then
    some { color with w := 1 }
  else if material.flags &&& STANDARD_MATERIAL_FLAGS_ALPHA_MODE_MASK ≠ 0 then
    if material.alpha_cutoff ≤ color.w then
      some { color with w := 1 }
    else
      none
  else
    some color

/-- Mesh data, with the one field pbr_functions.rs reads. -/
structure Mesh where
  flags : ℕ
deriving DecidableEq

/-- One point or spot light record; pbr_functions.rs reads only its flags and
hands the whole record to the lighting helpers. -/
structure PointLight where
  flags : ℕ
deriving DecidableEq

/-- One directional light record; pbr_functions.rs reads only its flags and
hands the whole record to the lighting helper. -/
structure DirectionalLight where
  flags : ℕ
deriving DecidableEq

/-- The point and spot light buffer: an index-to-record map standing for the
data array of the PointLights uniform. -/
structure PointLights where
  data : ℕ → PointLight

/-- A four-by-four rational matrix given by its four column vectors, as in
glam Mat4. -/
structure Mat4Q where
  x_axis : Vec4Q
  y_axis : Vec4Q
  z_axis : Vec4Q
  w_axis : Vec4Q

/-- The view uniform, with the one matrix the pbr function reads (the full
View type lives in the mesh_view_types module outside src). -/
structure View where
  inverse_view : Mat4Q

/-- The Lights uniform, with the fields the pbr function reads. -/
structure Lights where
  n_directional_lights : ℕ
  directional_lights : ℕ → DirectionalLight
  ambient_color : Vec4Q

/-- External collaborators of the pbr function that live in sibling modules
outside src (clustered_forward, pbr_lighting, shadows).  They are abstracted
as an arbitrary context: every theorem about pbr below is proved for all
contexts, so it holds whatever those helpers compute.  Texture, sampler and
index-buffer resources are folded into the context functions. -/
structure PbrCtx where
  perceptual_roughness_to_roughness : ℚ → ℚ
  fragment_cluster_index : View → Lights → Vec2Q → ℚ → Bool → ℕ
  unpack_offset_and_counts : ℕ → ℕ × ℕ × ℕ
  get_light_id : ℕ → ℕ
  point_light : Vec3Q → PointLight → ℚ → ℚ → Vec3Q → Vec3Q → Vec3Q → Vec3Q → Vec3Q → Vec3Q
  spot_light : Vec3Q → PointLight → ℚ → ℚ → Vec3Q → Vec3Q → Vec3Q → Vec3Q → Vec3Q → Vec3Q
  directional_light : DirectionalLight → ℚ → ℚ → Vec3Q → Vec3Q → Vec3Q → Vec3Q → Vec3Q → Vec3Q
  fetch_point_shadow : PointLights → ℕ → Vec4Q → Vec3Q → ℚ
  fetch_spot_shadow : Lights → PointLights → ℕ → Vec4Q → Vec3Q → ℚ
  fetch_directional_shadow : Lights → ℕ → Vec4Q → Vec3Q → ℚ
  env_brdf_approx : Vec3Q → ℚ → ℚ → Vec3Q

/-- Modelled from the spec: cluster_debug_visualization from the
clustered_forward module (outside src).  Step 11 of the aggregator design says
the debug overlay has no effect when disabled, which is the configuration this
repository builds, so it returns its color argument unchanged. -/
def cluster_debug_visualization (output_color : Vec4Q) (view_z : ℚ)
    (is_orthographic : Bool) (offset_and_counts : ℕ × ℕ × ℕ)
    (cluster_index : ℕ) : Vec4Q :=
  output_color

/-- The per-fragment input record of the pbr function (lines 139 to 154). -/
structure PbrInput where
  material : StandardMaterial
  occlusion : ℚ
  frag_coord : Vec4Q
  world_position : Vec4Q
  world_normal : Vec3Q
  n : Vec3Q
  v : Vec3Q
  is_orthographic : Bool

/-- The floored normal-view cosine computed at line 202 of pbr_functions.rs:
input.n.dot(input.v).max(0.0001). -/
def n_dot_v (n v : Vec3Q) : ℚ := max (n.dot v) 0.0001

/-- The reflection direction computed at line 213 of pbr_functions.rs:
the negation of input.v reflected about input.n. -/
def pbr_reflection_dir (v n : Vec3Q) : Vec3Q := -(v.reflect n)

/-- The point light index range iterated by the first light loop of pbr
(line 235): the half-open interval from the cluster offset of length equal to
the point light count. -/
def pbrPointLightIndices (offset point_count : ℕ) : List ℕ :=
  List.range' offset point_count

/-- The spot light index range iterated by the second light loop of pbr
(lines 272 to 274): the half-open interval starting right after the point
lights, of length equal to the spot light count. -/
def pbrSpotLightIndices (offset point_count spot_count : ℕ) : List ℕ :=
  List.range' (offset + point_count) spot_count

/-- Tag telling whether a cluster light index is traversed by the point light
loop or by the spot light loop of pbr. -/
inductive LightKind where
  | point : LightKind
  | spot : LightKind
deriving DecidableEq

/-- The order in which pbr walks the shared cluster light index list: the
whole point light range first (line 235), then the whole spot light range
(lines 272 to 274), each index paired with the loop that visits it. -/
def pbrLightVisitOrder (offset point_count spot_count : ℕ) : List (LightKind × ℕ) :=
  (pbrPointLightIndices offset point_count).map (fun i => (LightKind.point, i))
    ++ (pbrSpotLightIndices offset point_count spot_count).map (fun i => (LightKind.spot, i))

/-- The view-space depth computed at lines 218 to 224 of pbr_functions.rs:
the dot product of the third row of the inverse view matrix with the fragment
world position. -/
def pbrViewZ (view : View) (input : PbrInput) : ℚ :=
  (Vec4Q.mk view.inverse_view.x_axis.z view.inverse_view.y_axis.z
      view.inverse_view.z_axis.z view.inverse_view.w_axis.z).dot
    input.world_position

/-- The cluster index computed at lines 225 to 231 of pbr_functions.rs. -/
def pbrClusterIndex (ctx : PbrCtx) (view : View) (lights : Lights) (input : PbrInput) : ℕ :=
  ctx.fragment_cluster_index view lights input.frag_coord.truncate.truncate
    (pbrViewZ view input) input.is_orthographic

/-- The body of pbr after the alpha test (lines 201 to 356 of
pbr_functions.rs), taking the color returned by alpha_discard.  The source
computes roughness and occlusion before the alpha test; being pure
computations, they are bound here in the same order after it. -/
def pbrShade (ctx : PbrCtx) (view : View) (mesh : Mesh) (lights : Lights)
    (point_lights : PointLights) (input : PbrInput) (output_color0 : Vec4Q) : Vec4Q :=
  let emissive := input.material.emissive
  let metallic := input.material.metallic
  let perceptual_roughness := input.material.perceptual_roughness
  let roughness := ctx.perceptual_roughness_to_roughness perceptual_roughness
  let occlusion := input.occlusion
  let output_color := output_color0
  let nv := n_dot_v input.n input.v
  let reflectance := input.material.reflectance
  let f0 := (0.16 * reflectance * reflectance * (1 - metallic) : ℚ)
    + output_color.truncate * metallic
  let diffuse_color := output_color.truncate * (1 - metallic)
  let r := pbr_reflection_dir input.v input.n
  let view_z := pbrViewZ view input
  let cluster_index := pbrClusterIndex ctx view lights input
  let offset_and_counts := ctx.unpack_offset_and_counts cluster_index
  let light_accum_1 :=
    (pbrPointLightIndices offset_and_counts.1 offset_and_counts.2.1).foldl
      (fun light_accum i =>
        let light_id := ctx.get_light_id i
        let light := point_lights.data light_id
        let shadow : ℚ :=
          if mesh.flags &&& MESH_FLAGS_SHADOW_RECEIVER_BIT ≠ 0
              ∧ light.flags &&& POINT_LIGHT_FLAGS_SHADOWS_ENABLED_BIT ≠ 0 then
            ctx.fetch_point_shadow point_lights light_id input.world_position input.world_normal
          else 1
        let light_contrib := ctx.point_light input.world_position.truncate light
          roughness nv input.n input.v r f0 diffuse_color
        light_accum + light_contrib * shadow)
      Vec3Q.ZERO
  let light_accum_2 :=
    (pbrSpotLightIndices offset_and_counts.1 offset_and_counts.2.1 offset_and_counts.2.2).foldl
      (fun light_accum i =>
        let light_id := ctx.get_light_id i
        let light := point_lights.data light_id
        let shadow : ℚ :=
          if mesh.flags &&& MESH_FLAGS_SHADOW_RECEIVER_BIT ≠ 0
              ∧ light.flags &&& POINT_LIGHT_FLAGS_SHADOWS_ENABLED_BIT ≠ 0 then
            ctx.fetch_spot_shadow lights point_lights light_id input.world_position input.world_normal
          else 1
        let light_contrib := ctx.spot_light input.world_position.truncate light
          roughness nv input.n input.v r f0 diffuse_color
        light_accum + light_contrib * shadow)
      light_accum_1
  let light_accum_3 :=
    (List.range lights.n_directional_lights).foldl
      (fun light_accum i =>
        let light := lights.directional_lights i
        let shadow : ℚ :=
          if mesh.flags &&& MESH_FLAGS_SHADOW_RECEIVER_BIT ≠ 0
              ∧ light.flags &&& DIRECTIONAL_LIGHT_FLAGS_SHADOWS_ENABLED_BIT ≠ 0 then
            ctx.fetch_directional_shadow lights i input.world_position input.world_normal
          else 1
        let light_contrib := ctx.directional_light light
          roughness nv input.n input.v r f0 diffuse_color
        light_accum + light_contrib * shadow)
      light_accum_2
  let diffuse_ambient := ctx.env_brdf_approx diffuse_color 1 nv
  let specular_ambient := ctx.env_brdf_approx f0 perceptual_roughness nv
  let output_color_final :=
    (light_accum_3
        + (diffuse_ambient + specular_ambient) * lights.ambient_color.truncate * occlusion
        + emissive.truncate * output_color.w).extend
      output_color.w
  cluster_debug_visualization output_color_final view_z input.is_orthographic
    offset_and_counts cluster_index

/-- The pbr aggregator (lines 174 to 357 of pbr_functions.rs).  A discarded
fragment yields none; otherwise the shaded color is returned. -/
def pbr (ctx : PbrCtx) (view : View) (mesh : Mesh) (lights : Lights)
    (point_lights : PointLights) (input : PbrInput) : Option Vec4Q :=
  match alpha_discard input.material input.material.base_color with
  | none => none
  | some output_color => some (pbrShade ctx view mesh lights point_lights input output_color)

/-- Two-component real vector, for the helpers that need square roots. -/
@[ext]
structure Vec2R where
  x : ℝ
  y : ℝ

/-- Three-component real vector, for the helpers that need square roots. -/
@[ext]
structure Vec3R where
  x : ℝ
  y : ℝ
  z : ℝ

/-- Four-component real vector, for the helpers that need square roots. -/
@[ext]
structure Vec4R where
  x : ℝ
  y : ℝ
  z : ℝ
  w : ℝ

/-- Componentwise subtraction (glam Sub for Vec3). -/
instance : Sub Vec3R := ⟨fun a b => ⟨a.x - b.x, a.y - b.y, a.z - b.z⟩⟩

theorem Vec3R.sub_components (a b : Vec3R) : a - b = ⟨a.x - b.x, a.y - b.y, a.z - b.z⟩ := rfl

/-- glam Vec3::dot over the reals. -/
def Vec3R.dot (a b : Vec3R) : ℝ := a.x * b.x + a.y * b.y + a.z * b.z

/-- glam Vec3::length: the square root of the dot product with itself. -/
noncomputable def Vec3R.length (v : Vec3R) : ℝ := Real.sqrt (v.dot v)

/-- glam Vec3::normalize: the vector divided by its length. -/
noncomputable def Vec3R.normalize (v : Vec3R) : Vec3R :=
  ⟨v.x / v.length, v.y / v.length, v.z / v.length⟩

/-- glam Vec4::truncate over the reals. -/
def Vec4R.truncate (v : Vec4R) : Vec3R := ⟨v.x, v.y, v.z⟩

/-- A four-by-four real matrix given by its four column vectors. -/
structure Mat4R where
  x_axis : Vec4R
  y_axis : Vec4R
  z_axis : Vec4R
  w_axis : Vec4R

/-- The view uniform as read by calculate_view: the view projection matrix
and the camera world position (the full View type lives in the
mesh_view_types module outside src). -/
structure ViewR where
  view_proj : Mat4R
  world_position : Vec3R

/-- calculate_view from pbr_functions.rs lines 124 to 137: in orthographic
mode the normalized z column triple of the view projection matrix, otherwise
the normalized vector from the fragment world position to the camera world
position. -/
noncomputable def calculate_view (view : ViewR) (world_position : Vec4R)
    (is_orthographic : Bool) : Vec3R :=
  if is_orthographic then
    (Vec3R.mk view.view_proj.x_axis.z view.view_proj.y_axis.z
        view.view_proj.z_axis.z).normalize
  else
    (view.world_position - world_position.truncate).normalize

/-- apply_normal_mapping from pbr_functions.rs lines 65 to 120, as it
compiles.  The two normal mapping blocks are dead code: the block at lines 92
to 117 is guarded by a cfg key misspelled feaure (line 95), so it is excluded
from every build, and both blocks reference unbound uppercase identifiers (N,
T, B, cross, textureSample at lines 88, 89, 99, 116), so a build enabling
them would not compile.  In every configuration that compiles the function
therefore returns the re-normalized world normal, ignoring the tangent, the
uv coordinate and the material flags. -/
noncomputable def apply_normal_mapping (_standard_material_flags : ℕ)
    (world_normal : Vec3R) (_world_tangent : Vec4R) (_uv : Vec2R) : Vec3R :=
  world_normal.normalize

/-- A context whose external collaborators are all trivial constants, used to
evaluate pbr at concrete inputs. -/
def ctx0 : PbrCtx where
  perceptual_roughness_to_roughness := fun r => r
  fragment_cluster_index := fun _ _ _ _ _ => 0
  unpack_offset_and_counts := fun _ => (0, 0, 0)
  get_light_id := fun i => i
  point_light := fun _ _ _ _ _ _ _ _ _ => Vec3Q.ZERO
  spot_light := fun _ _ _ _ _ _ _ _ _ => Vec3Q.ZERO
  directional_light := fun _ _ _ _ _ _ _ _ => Vec3Q.ZERO
  fetch_point_shadow := fun _ _ _ _ => 1
  fetch_spot_shadow := fun _ _ _ _ _ => 1
  fetch_directional_shadow := fun _ _ _ _ => 1
  env_brdf_approx := fun _ _ _ => Vec3Q.ZERO

/-- A concrete view with a zero inverse view matrix. -/
def view0 : View := ⟨⟨⟨0, 0, 0, 0⟩, ⟨0, 0, 0, 0⟩, ⟨0, 0, 0, 0⟩, ⟨0, 0, 0, 0⟩⟩⟩

/-- A concrete mesh that does not receive shadows. -/
def mesh0 : Mesh := ⟨0⟩

/-- A concrete light buffer with no directional lights and zero ambient
color. -/
def lights0 : Lights := ⟨0, fun _ => ⟨0⟩, ⟨0, 0, 0, 0⟩⟩

/-- A concrete point light buffer. -/
def point_lights0 : PointLights := ⟨fun _ => ⟨0⟩⟩

/-- An opaque material with base alpha 0.3 and nonzero emissive. -/
def mat_opaque : StandardMaterial :=
  ⟨⟨0.5, 0.5, 0.5, 0.3⟩, ⟨1, 2, 3, 1⟩, 0.5, 0, 0.5,
    STANDARD_MATERIAL_FLAGS_ALPHA_MODE_OPAQUE, 0.5⟩

/-- A masked material whose base alpha 0.3 is below the cutoff 0.5. -/
def mat_masked_low : StandardMaterial :=
  ⟨⟨0.5, 0.5, 0.5, 0.3⟩, ⟨0, 0, 0, 1⟩, 0.5, 0, 0.5,
    STANDARD_MATERIAL_FLAGS_ALPHA_MODE_MASK, 0.5⟩

/-- A masked material whose base alpha 0.7 is above the cutoff 0.5. -/
def mat_masked_high : StandardMaterial :=
  ⟨⟨0.5, 0.5, 0.5, 0.7⟩, ⟨0, 0, 0, 1⟩, 0.5, 0, 0.5,
    STANDARD_MATERIAL_FLAGS_ALPHA_MODE_MASK, 0.5⟩

/-- A material with neither the opaque nor the mask flag and a base alpha of
2, outside the unit interval. -/
def mat_blend_big : StandardMaterial :=
  ⟨⟨0.25, 0.25, 0.25, 2⟩, ⟨0, 0, 0, 0⟩, 0.5, 0, 0.5, 0, 0.5⟩

/-- A material with neither the opaque nor the mask flag and base alpha 0.3
inside the unit interval. -/
def mat_blend_ok : StandardMaterial :=
  ⟨⟨0.25, 0.25, 0.25, 0.3⟩, ⟨0, 0, 0, 0⟩, 0.5, 0, 0.5, 0, 0.5⟩

/-- A concrete fragment input carrying the given material. -/
def input_of (m : StandardMaterial) : PbrInput :=
  ⟨m, 1, ⟨0, 0, 0, 1⟩, ⟨0, 0, 0, 1⟩, ⟨0, 0, 1⟩, ⟨0, 0, 1⟩, ⟨1, 0, 0⟩, false⟩

/-- Helper: the color returned by alpha_discard is either the input color
with alpha forced to one, or the input color unchanged. -/
theorem alpha_discard_cases (m : StandardMaterial) (c oc : Vec4Q)
    (h : alpha_discard m c = some oc) : oc = { c with w := 1 } ∨ oc = c := by
  unfold alpha_discard at h
  dsimp only at h
  split_ifs at h
  all_goals first
    | exact Or.inl (Option.some.inj h).symm
    | exact Or.inr (Option.some.inj h).symm

/-- Helper: the alpha component of the shaded color is the alpha component of
the color that alpha_discard returned. -/
theorem pbrShade_w (ctx : PbrCtx) (view : View) (mesh : Mesh) (lights : Lights)
    (point_lights : PointLights) (input : PbrInput) (oc : Vec4Q) :
    (pbrShade ctx view mesh lights point_lights input oc).w = oc.w := rfl

/-- C1: alpha_discard forces alpha to 1 when the opaque flag is set; when
only the mask flag is set it forces alpha to 1 if alpha reaches the cutoff
and discards the fragment otherwise; and a discarded fragment short-circuits
pbr, which then returns no color. -/
theorem alpha_discard_spec :
    (∀ (m : StandardMaterial) (c : Vec4Q),
      (m.flags &&& STANDARD_MATERIAL_FLAGS_ALPHA_MODE_OPAQUE ≠ 0 →
        alpha_discard m c = some { c with w := 1 })
      ∧ (m.flags &&& STANDARD_MATERIAL_FLAGS_ALPHA_MODE_OPAQUE = 0 →
          m.flags &&& STANDARD_MATERIAL_FLAGS_ALPHA_MODE_MASK ≠ 0 →
          m.alpha_cutoff ≤ c.w →
          alpha_discard m c = some { c with w := 1 })
      ∧ (m.flags &&& STANDARD_MATERIAL_FLAGS_ALPHA_MODE_OPAQUE = 0 →
          m.flags &&& STANDARD_MATERIAL_FLAGS_ALPHA_MODE_MASK ≠ 0 →
          c.w < m.alpha_cutoff →
          alpha_discard m c = none))
    ∧ (∀ (ctx : PbrCtx) (view : View) (mesh : Mesh) (lights : Lights)
        (point_lights : PointLights) (input : PbrInput),
        alpha_discard input.material input.material.base_color = none →
        pbr ctx view mesh lights point_lights input = none) := by
  constructor
  · intro m c
    refine ⟨fun hop => ?_, fun hop hmask hcut => ?_, fun hop hmask hcut => ?_⟩
    · unfold alpha_discard
      rw [if_pos hop]
    · unfold alpha_discard
      rw [if_neg (by simp [hop]), if_pos hmask, if_pos hcut]
    · unfold alpha_discard
      rw [if_neg (by simp [hop]), if_pos hmask, if_neg (not_le.mpr hcut)]
  · intro ctx view mesh lights point_lights input h
    unfold pbr
    rw [h]

/-- Witness for C1 at concrete materials: an opaque one, a masked one above
the cutoff, and a masked one below the cutoff whose discard makes pbr return
no color. -/
theorem alpha_discard_spec_witness :
    alpha_discard mat_opaque mat_opaque.base_color
      = some { mat_opaque.base_color with w := 1 }
    ∧ alpha_discard mat_masked_high mat_masked_high.base_color
      = some { mat_masked_high.base_color with w := 1 }
    ∧ alpha_discard mat_masked_low mat_masked_low.base_color = none
    ∧ pbr ctx0 view0 mesh0 lights0 point_lights0 (input_of mat_masked_low) = none :=
  ⟨(alpha_discard_spec.1 mat_opaque mat_opaque.base_color).1 (by decide),
   (alpha_discard_spec.1 mat_masked_high mat_masked_high.base_color).2.1
     (by decide) (by decide) (by with_unfolding_all decide),
   (alpha_discard_spec.1 mat_masked_low mat_masked_low.base_color).2.2
     (by decide) (by decide) (by with_unfolding_all decide),
   alpha_discard_spec.2 ctx0 view0 mesh0 lights0 point_lights0
     (input_of mat_masked_low) (by with_unfolding_all decide)⟩

/-- C10: on every non-discarding path, alpha_discard changes at most the
alpha component: the x, y, z components of the returned color equal those of
the input color. -/
theorem alpha_discard_preserves_rgb :
    ∀ (m : StandardMaterial) (c oc : Vec4Q), alpha_discard m c = some oc →
      oc.x = c.x ∧ oc.y = c.y ∧ oc.z = c.z := by
  intro m c oc h
  rcases alpha_discard_cases m c oc h with h1 | h1 <;> subst h1 <;> exact ⟨rfl, rfl, rfl⟩

/-- Witness for C10 at the opaque material. -/
theorem alpha_discard_preserves_rgb_witness :
    (Vec4Q.mk 0.5 0.5 0.5 1).x = mat_opaque.base_color.x
    ∧ (Vec4Q.mk 0.5 0.5 0.5 1).y = mat_opaque.base_color.y
    ∧ (Vec4Q.mk 0.5 0.5 0.5 1).z = mat_opaque.base_color.z :=
  alpha_discard_preserves_rgb mat_opaque mat_opaque.base_color
    ⟨0.5, 0.5, 0.5, 1⟩ (by with_unfolding_all decide)

/-- C5: the floored normal-view cosine computed by pbr is at least 0.0001 for
every pair of input vectors. -/
theorem n_dot_v_floor : ∀ n v : Vec3Q, (0.0001 : ℚ) ≤ n_dot_v n v :=
  fun n v => le_max_right (n.dot v) 0.0001

/-- C6: the reflection direction computed by pbr, the negation of v reflected
about n, equals the mirror reflection of the negated view vector about n. -/
theorem pbr_reflection_dir_eq_reflect :
    ∀ v n : Vec3Q, pbr_reflection_dir v n = (-v).reflect n := by
  intro v n
  apply Vec3Q.ext <;>
    simp [pbr_reflection_dir, Vec3Q.reflect, Vec3Q.dot, Vec3Q.sub_def, Vec3Q.neg_def,
      Vec3Q.scalar_mul_def] <;>
    ring

/-- Helper: truncating an extended vector gives back the three-component
vector. -/
theorem Vec4Q.truncate_extend (v : Vec3Q) (w : ℚ) : (v.extend w).truncate = v := rfl

/-- C3: whenever pbr returns a color, its alpha component is exactly the
alpha computed by alpha_discard on the base color, and in particular it is 1
whenever the opaque flag is set. -/
theorem pbr_preserves_alpha (ctx : PbrCtx) (view : View) (mesh : Mesh)
    (lights : Lights) (point_lights : PointLights) (input : PbrInput) (c : Vec4Q)
    (hc : pbr ctx view mesh lights point_lights input = some c) :
    (∀ c0 : Vec4Q, alpha_discard input.material input.material.base_color = some c0 →
      c.w = c0.w)
    ∧ (input.material.flags &&& STANDARD_MATERIAL_FLAGS_ALPHA_MODE_OPAQUE ≠ 0 →
      c.w = 1) := by
  unfold pbr at hc
  cases h : alpha_discard input.material input.material.base_color with
  | none => rw [h] at hc; cases hc
  | some oc =>
    rw [h] at hc
    obtain rfl := Option.some.inj hc
    constructor
    · intro c0 hc0
      obtain rfl := Option.some.inj hc0
      exact pbrShade_w ctx view mesh lights point_lights input oc
    · intro hop
      have hoc : alpha_discard input.material input.material.base_color
          = some { input.material.base_color with w := 1 } := by
        unfold alpha_discard
        rw [if_pos hop]
      rw [h] at hoc
      have hw : oc = { input.material.base_color with w := 1 } := Option.some.inj hoc
      rw [pbrShade_w, hw]

/-- Witness for C3: at the concrete opaque input, pbr returns the color
(1, 2, 3, 1), whose alpha equals the alpha that alpha_discard produced and
equals 1. -/
theorem pbr_preserves_alpha_witness :
    (Vec4Q.mk 1 2 3 1).w = (Vec4Q.mk 0.5 0.5 0.5 1).w ∧ (Vec4Q.mk 1 2 3 1).w = 1 :=
  have h := pbr_preserves_alpha ctx0 view0 mesh0 lights0 point_lights0
    (input_of mat_opaque) ⟨1, 2, 3, 1⟩ (by with_unfolding_all decide)
  ⟨h.1 ⟨0.5, 0.5, 0.5, 1⟩ (by with_unfolding_all decide), h.2 (by decide)⟩

/-- Helper: with an empty cluster range, no directional lights and zero
ambient color, the shaded color reduces to the emissive contribution scaled
by the final alpha. -/
theorem pbrShade_truncate_no_lights (ctx : PbrCtx) (view : View) (mesh : Mesh)
    (lights : Lights) (point_lights : PointLights) (input : PbrInput) (oc : Vec4Q)
    (off : ℕ)
    (h1 : ctx.unpack_offset_and_counts (pbrClusterIndex ctx view lights input) = (off, 0, 0))
    (h2 : lights.n_directional_lights = 0)
    (h3 : lights.ambient_color.truncate = Vec3Q.ZERO) :
    (pbrShade ctx view mesh lights point_lights input oc).truncate
      = input.material.emissive.truncate * oc.w := by
  unfold pbrShade
  simp only [cluster_debug_visualization, h1, h2, h3, pbrPointLightIndices,
    pbrSpotLightIndices, List.range'_zero, List.range_zero, List.foldl_nil,
    Vec4Q.truncate_extend]
  apply Vec3Q.ext <;>
    simp [Vec3Q.add_def, Vec3Q.mul_def, Vec3Q.mul_scalar_def, Vec3Q.ZERO]

/-- C4: whenever the cluster lookup yields zero point and spot light counts,
there are no directional lights and the ambient color is zero, the RGB part
of the color pbr returns equals the emissive RGB scaled by the final alpha. -/
theorem pbr_zero_lights_emissive (ctx : PbrCtx) (view : View) (mesh : Mesh)
    (lights : Lights) (point_lights : PointLights) (input : PbrInput) (off : ℕ)
    (h1 : ctx.unpack_offset_and_counts (pbrClusterIndex ctx view lights input) = (off, 0, 0))
    (h2 : lights.n_directional_lights = 0)
    (h3 : lights.ambient_color.truncate = Vec3Q.ZERO)
    (c : Vec4Q) (hc : pbr ctx view mesh lights point_lights input = some c) :
    c.truncate = input.material.emissive.truncate * c.w := by
  unfold pbr at hc
  cases h : alpha_discard input.material input.material.base_color with
  | none => rw [h] at hc; cases hc
  | some oc =>
    rw [h] at hc
    obtain rfl := Option.some.inj hc
    rw [pbrShade_w]
    exact pbrShade_truncate_no_lights ctx view mesh lights point_lights input oc off h1 h2 h3

/-- Witness for C4: at the concrete opaque input with empty light ranges and
zero ambient color, the RGB of the returned color (1, 2, 3, 1) is the
emissive color (1, 2, 3) times the final alpha 1. -/
theorem pbr_zero_lights_emissive_witness :
    (Vec4Q.mk 1 2 3 1).truncate
      = (input_of mat_opaque).material.emissive.truncate * (Vec4Q.mk 1 2 3 1).w :=
  pbr_zero_lights_emissive ctx0 view0 mesh0 lights0 point_lights0
    (input_of mat_opaque) 0 (by decide) (by decide) (by with_unfolding_all decide)
    ⟨1, 2, 3, 1⟩ (by with_unfolding_all decide)

/-- C8 (amended): whenever the base color alpha lies in the unit interval,
every color pbr returns has its alpha in the unit interval (the claim as
stated fails for a blend-mode material whose base alpha is outside the unit
interval, which alpha_discard passes through unchanged). -/
theorem pbr_alpha_unit (ctx : PbrCtx) (view : View) (mesh : Mesh)
    (lights : Lights) (point_lights : PointLights) (input : PbrInput)
    (h0 : 0 ≤ input.material.base_color.w) (h1 : input.material.base_color.w ≤ 1)
    (c : Vec4Q) (hc : pbr ctx view mesh lights point_lights input = some c) :
    0 ≤ c.w ∧ c.w ≤ 1 := by
  unfold pbr at hc
  cases h : alpha_discard input.material input.material.base_color with
  | none => rw [h] at hc; cases hc
  | some oc =>
    rw [h] at hc
    obtain rfl := Option.some.inj hc
    rw [pbrShade_w]
    rcases alpha_discard_cases input.material input.material.base_color oc h with h2 | h2 <;>
      subst h2
    · exact ⟨zero_le_one, le_refl 1⟩
    · exact ⟨h0, h1⟩

/-- Witness for C8 at a blend-mode input with base alpha 0.3: the returned
alpha lies in the unit interval. -/
theorem pbr_alpha_unit_witness :
    (0 : ℚ) ≤ (Vec4Q.mk 0 0 0 0.3).w ∧ (Vec4Q.mk 0 0 0 0.3).w ≤ 1 :=
  pbr_alpha_unit ctx0 view0 mesh0 lights0 point_lights0 (input_of mat_blend_ok)
    (by with_unfolding_all decide) (by with_unfolding_all decide)
    ⟨0, 0, 0, 0.3⟩ (by with_unfolding_all decide)

/-- Counterexample for C8 as stated: for a material with neither the opaque
nor the mask flag and base alpha 2, pbr does not discard and returns a color
whose alpha is 2, outside the unit interval. -/
theorem pbr_alpha_unit_cex :
    pbr ctx0 view0 mesh0 lights0 point_lights0 (input_of mat_blend_big)
      = some ⟨0, 0, 0, 2⟩
    ∧ ¬ ((0 : ℚ) ≤ (Vec4Q.mk 0 0 0 2).w ∧ (Vec4Q.mk 0 0 0 2).w ≤ 1) := by
  with_unfolding_all decide

/-- C2: the traversal order pbr uses on the shared cluster light index list
has no duplicates; a position is visited by the point light loop exactly when
it lies in the range from the offset of length the point count, and by the
spot light loop exactly when it lies in the following range of length the
spot count; and every position visited as a point light comes strictly
before every position visited as a spot light. -/
theorem pbr_cluster_visit_order (off pc sc : ℕ) :
    (pbrLightVisitOrder off pc sc).Nodup
    ∧ (∀ i : ℕ, (LightKind.point, i) ∈ pbrLightVisitOrder off pc sc ↔
        off ≤ i ∧ i < off + pc)
    ∧ (∀ i : ℕ, (LightKind.spot, i) ∈ pbrLightVisitOrder off pc sc ↔
        off + pc ≤ i ∧ i < off + pc + sc)
    ∧ (∀ i j p q : ℕ,
        (pbrLightVisitOrder off pc sc)[i]? = some (LightKind.point, p) →
        (pbrLightVisitOrder off pc sc)[j]? = some (LightKind.spot, q) → i < j) := by
  have hinjp : Function.Injective (fun j : ℕ => ((LightKind.point, j) : LightKind × ℕ)) :=
    fun a b h => congrArg Prod.snd h
  have hinjs : Function.Injective (fun j : ℕ => ((LightKind.spot, j) : LightKind × ℕ)) :=
    fun a b h => congrArg Prod.snd h
  refine ⟨?_, ?_, ?_, ?_⟩
  · unfold pbrLightVisitOrder pbrPointLightIndices pbrSpotLightIndices
    apply List.Nodup.append
    · exact List.Nodup.map hinjp (List.nodup_range' off pc)
    · exact List.Nodup.map hinjs (List.nodup_range' (off + pc) sc)
    · intro a hap has
      simp only [List.mem_map] at hap has
      obtain ⟨x, -, rfl⟩ := hap
      obtain ⟨y, -, hy⟩ := has
      cases hy
  · intro i
    unfold pbrLightVisitOrder pbrPointLightIndices pbrSpotLightIndices
    simp [List.mem_append, List.mem_map, List.mem_range'_1]
  · intro i
    unfold pbrLightVisitOrder pbrPointLightIndices pbrSpotLightIndices
    simp [List.mem_append, List.mem_map, List.mem_range'_1]
  · intro i j p q hi hj
    unfold pbrLightVisitOrder pbrPointLightIndices pbrSpotLightIndices at hi hj
    have hlen :
        ((List.range' off pc).map (fun j => ((LightKind.point, j) : LightKind × ℕ))).length
          = pc := by
      simp
    have hipc : i < pc := by
      by_contra hni
      push_neg at hni
      rw [List.getElem?_append_right (by rw [hlen]; exact hni)] at hi
      simp [List.getElem?_map] at hi
    have hjpc : pc ≤ j := by
      by_contra hnj
      push_neg at hnj
      rw [List.getElem?_append_left (by rw [hlen]; exact hnj)] at hj
      simp [List.getElem?_map] at hj
    omega

/-- Witness for C2 at the cluster triple (1, 2, 1): position 1 is visited as
a point light, position 3 as a spot light, and the point visit at slot 0
comes before the spot visit at slot 2. -/
theorem pbr_cluster_visit_order_witness :
    ((LightKind.point, 1) ∈ pbrLightVisitOrder 1 2 1)
    ∧ ((LightKind.spot, 3) ∈ pbrLightVisitOrder 1 2 1)
    ∧ (0 : ℕ) < 2 :=
  ⟨((pbr_cluster_visit_order 1 2 1).2.1 1).mpr (by decide),
   ((pbr_cluster_visit_order 1 2 1).2.2.1 3).mpr (by decide),
   (pbr_cluster_visit_order 1 2 1).2.2.2 0 2 1 3 (by decide) (by decide)⟩

/-- C7: in orthographic mode calculate_view gives the same vector for any two
world positions under the same view; in perspective mode it is the normalized
vector from the fragment world position to the camera world position, and
there are two world positions for which it differs under the same view. -/
theorem calculate_view_spec :
    (∀ (view : ViewR) (w1 w2 : Vec4R),
      calculate_view view w1 true = calculate_view view w2 true)
    ∧ (∀ (view : ViewR) (wp : Vec4R),
      calculate_view view wp false = (view.world_position - wp.truncate).normalize)
    ∧ (∃ (view : ViewR) (w1 w2 : Vec4R),
        calculate_view view w1 false ≠ calculate_view view w2 false) := by
  refine ⟨fun view w1 w2 => rfl, fun view wp => rfl, ?_⟩
  refine ⟨⟨⟨⟨0, 0, 0, 0⟩, ⟨0, 0, 0, 0⟩, ⟨0, 0, 0, 0⟩, ⟨0, 0, 0, 0⟩⟩, ⟨0, 0, 0⟩⟩,
    ⟨1, 0, 0, 1⟩, ⟨-1, 0, 0, 1⟩, ?_⟩
  intro h
  have hx := congrArg Vec3R.x h
  simp only [calculate_view, Bool.false_eq_true, if_false, Vec3R.sub_components, Vec4R.truncate,
    Vec3R.normalize, Vec3R.length, Vec3R.dot] at hx
  norm_num [Real.sqrt_one] at hx

/-- C9: in every configuration that compiles, apply_normal_mapping returns
the re-normalized world normal and ignores the material flags, the vertex
tangent and the uv coordinate, so the tangent-space transform the
specification describes never happens. -/
theorem apply_normal_mapping_ignores_normal_map :
    ∀ (flags1 flags2 : ℕ) (world_normal : Vec3R) (t1 t2 : Vec4R) (uv1 uv2 : Vec2R),
      apply_normal_mapping flags1 world_normal t1 uv1 = world_normal.normalize
      ∧ apply_normal_mapping flags1 world_normal t1 uv1
        = apply_normal_mapping flags2 world_normal t2 uv2 :=
  fun _ _ _ _ _ _ _ => ⟨rfl, rfl⟩
